import Mathlib

/-!
Verification of the percolator-sdk binary state codec and derived-price math.

The definitions below are a shallow embedding of `src/solana/slab.ts` and
`src/solana/dex-oracle.ts`.  Byte buffers are modelled as a length `len : Nat`
together with a content function `f : Nat → Fin 256`; the TypeScript code
bounds-checks every region before reading, so reads beyond `len` never happen
on the success path and the content function may be total.  JavaScript bigint
arithmetic on non-negative values is modelled with `Nat` (with explicit
conversion to `Int` where the source interprets two's complement).
-/

namespace PercolatorSdk

abbrev Byte := Fin 256

/-! ### Little-endian primitive readers (DataView semantics) -/

/-- Little-endian unsigned 16-bit read (`DataView.getUint16(off, true)`). -/
def readU16LE (f : Nat → Byte) (off : Nat) : Nat :=
  (f off).val + 256 * (f (off + 1)).val

/-- Little-endian unsigned 32-bit read (`DataView.getUint32(off, true)`). -/
def readU32LE (f : Nat → Byte) (off : Nat) : Nat :=
  (f off).val + 256 * ((f (off + 1)).val + 256 * ((f (off + 2)).val + 256 * (f (off + 3)).val))

/-- Little-endian unsigned 64-bit read (`DataView.getBigUint64(off, true)`). -/
def readU64LE (f : Nat → Byte) (off : Nat) : Nat :=
  (f off).val + 256 * ((f (off + 1)).val + 256 * ((f (off + 2)).val + 256 * ((f (off + 3)).val +
    256 * ((f (off + 4)).val + 256 * ((f (off + 5)).val + 256 * ((f (off + 6)).val +
    256 * (f (off + 7)).val))))))

/-- Little-endian signed 64-bit read (`DataView.getBigInt64(off, true)`). -/
def readI64LE (f : Nat → Byte) (off : Nat) : Int :=
  let u := readU64LE f off
  if 2 ^ 63 ≤ u then (u : Int) - 2 ^ 64 else (u : Int)

/-- Little-endian signed 32-bit read (`DataView.getInt32(off, true)`). -/
def readI32LE (f : Nat → Byte) (off : Nat) : Int :=
  let u := readU32LE f off
  if 2 ^ 31 ≤ u then (u : Int) - 2 ^ 32 else (u : Int)

/-- `readU128LE` from slab.ts / dex-oracle.ts: `(hi << 64) | lo` with both
halves read as little-endian u64.  Since `lo < 2^64` the bitwise or is plain
addition. -/
def readU128LE (f : Nat → Byte) (off : Nat) : Nat :=
  let lo := readU64LE f off
  let hi := readU64LE f (off + 8)
  hi * 2 ^ 64 + lo

/-- `readI128LE` from slab.ts: compose the unsigned 128-bit value from two
u64 halves, then subtract `2^128` when the sign bit is set. -/
def readI128LE (f : Nat → Byte) (off : Nat) : Int :=
  let lo := readU64LE f off
  let hi := readU64LE f (off + 8)
  let unsigned : Nat := hi * 2 ^ 64 + lo
  if 2 ^ 127 ≤ unsigned then (unsigned : Int) - 2 ^ 128 else (unsigned : Int)

theorem readU64LE_lt (f : Nat → Byte) (off : Nat) : readU64LE f off < 2 ^ 64 := by
  unfold readU64LE
  have h0 := (f off).isLt
  have h1 := (f (off + 1)).isLt
  have h2 := (f (off + 2)).isLt
  have h3 := (f (off + 3)).isLt
  have h4 := (f (off + 4)).isLt
  have h5 := (f (off + 5)).isLt
  have h6 := (f (off + 6)).isLt
  have h7 := (f (off + 7)).isLt
  omega

/-! ### Slab header (`parseHeader` in slab.ts) -/

def MAGIC : Nat := 0x504552434f4c4154
def HEADER_LEN : Nat := 104
def RESERVED_OFF : Nat := 80
def FLAG_RESOLVED : Nat := 1

/-- The i-th little-endian byte of the 8-byte magic constant. -/
def magicByte (i : Nat) : Nat := MAGIC / 256 ^ i % 256

structure SlabHeader where
  magic : Nat
  version : Nat
  bump : Nat
  flags : Nat
  resolved : Bool
  paused : Bool
  admin : List Byte
  nonce : Nat
  lastThrUpdateSlot : Nat
deriving DecidableEq

/-- `parseHeader(data)`: length check, magic check, then fixed-offset reads
of version, bump, flag byte, admin identity and the reserved region. -/
def parseHeader (len : Nat) (f : Nat → Byte) : Option SlabHeader :=
  if len < HEADER_LEN then none
  else
    let magic := readU64LE f 0
    if magic ≠ MAGIC then none
    else some {
      magic := magic
      version := readU32LE f 8
      bump := (f 12).val
      flags := (f 13).val
      resolved := ((f 13).val &&& FLAG_RESOLVED) != 0
      paused := ((f 13).val &&& 2) != 0
      admin := (List.range 32).map fun i => f (16 + i)
      nonce := readU64LE f RESERVED_OFF
      lastThrUpdateSlot := readU64LE f (RESERVED_OFF + 8) }

/-! ### Layout resolver (`slabLayout` / `detectLayout` in slab.ts) -/

def ENGINE_OFF : Nat := 600
def ENGINE_BITMAP_OFF : Nat := 576
def DEFAULT_MAX_ACCOUNTS : Nat := 4096
def DEFAULT_BITMAP_WORDS : Nat := 64
def ACCOUNT_SIZE : Nat := 248
def ENGINE_ACCOUNTS_OFF : Nat := 9304

structure SlabLayoutInfo where
  bitmapWords : Nat
  accountsOff : Nat
  maxAccounts : Nat
deriving DecidableEq

/-- `slabLayout(maxAccounts)`: bitmap words, accounts offset (8-byte aligned)
and capacity.  `Math.ceil(x / 64)` and `Math.ceil(x / 8) * 8` are the rounded
Nat divisions below. -/
def slabLayout (maxAccounts : Nat) : SlabLayoutInfo :=
  let bitmapWords := (maxAccounts + 63) / 64
  let bitmapBytes := bitmapWords * 8
  let postBitmap := 18
  let nextFreeBytes := maxAccounts * 2
  let preAccountsLen := ENGINE_BITMAP_OFF + bitmapBytes + postBitmap + nextFreeBytes
  let accountsOff := (preAccountsLen + 7) / 8 * 8
  { bitmapWords := bitmapWords, accountsOff := accountsOff, maxAccounts := maxAccounts }

/-- The tier list hard-coded in `detectLayout`. -/
def KNOWN_TIERS : List Nat := [64, 256, 1024, 4096]

/-- Total slab byte length the size formula computes for capacity `n`
(the `expectedLen` inside `detectLayout`). -/
def expectedSlabLen (n : Nat) : Nat :=
  ENGINE_OFF + (slabLayout n).accountsOff + n * ACCOUNT_SIZE

/-- `detectLayout(dataLen)`: try each known tier in order and adopt the first
whose computed total length equals `dataLen`; otherwise `none`. -/
def detectLayout (dataLen : Nat) : Option SlabLayoutInfo :=
  (KNOWN_TIERS.find? fun n => expectedSlabLen n == dataLen).map slabLayout

/-! ### Engine state (`parseEngine` in slab.ts) -/

def ENGINE_VAULT_OFF : Nat := 0
def ENGINE_INSURANCE_OFF : Nat := 16
def ENGINE_CURRENT_SLOT_OFF : Nat := 336
def ENGINE_FUNDING_INDEX_OFF : Nat := 344
def ENGINE_LAST_FUNDING_SLOT_OFF : Nat := 360
def ENGINE_FUNDING_RATE_BPS_OFF : Nat := 368
def ENGINE_LAST_CRANK_SLOT_OFF : Nat := 400
def ENGINE_MAX_CRANK_STALENESS_OFF : Nat := 408
def ENGINE_TOTAL_OI_OFF : Nat := 416
def ENGINE_C_TOT_OFF : Nat := 432
def ENGINE_PNL_POS_TOT_OFF : Nat := 448
def ENGINE_LIQ_CURSOR_OFF : Nat := 464
def ENGINE_GC_CURSOR_OFF : Nat := 466
def ENGINE_LAST_SWEEP_START_OFF : Nat := 472
def ENGINE_LAST_SWEEP_COMPLETE_OFF : Nat := 480
def ENGINE_CRANK_CURSOR_OFF : Nat := 488
def ENGINE_SWEEP_START_IDX_OFF : Nat := 490
def ENGINE_LIFETIME_LIQUIDATIONS_OFF : Nat := 496
def ENGINE_LIFETIME_FORCE_CLOSES_OFF : Nat := 504
def ENGINE_NET_LP_POS_OFF : Nat := 512
def ENGINE_LP_SUM_ABS_OFF : Nat := 528
def ENGINE_LP_MAX_ABS_OFF : Nat := 544
def ENGINE_LP_MAX_ABS_SWEEP_OFF : Nat := 560

structure InsuranceFund where
  balance : Nat
  feeRevenue : Nat
deriving DecidableEq

structure EngineState where
  vault : Nat
  insuranceFund : InsuranceFund
  currentSlot : Nat
  fundingIndexQpbE6 : Int
  lastFundingSlot : Nat
  fundingRateBpsPerSlotLast : Int
  lastCrankSlot : Nat
  maxCrankStalenessSlots : Nat
  totalOpenInterest : Nat
  cTot : Nat
  pnlPosTot : Nat
  liqCursor : Nat
  gcCursor : Nat
  lastSweepStartSlot : Nat
  lastSweepCompleteSlot : Nat
  crankCursor : Nat
  sweepStartIdx : Nat
  lifetimeLiquidations : Nat
  lifetimeForceCloses : Nat
  netLpPos : Int
  lpSumAbs : Nat
  lpMaxAbs : Nat
  lpMaxAbsSweep : Nat
  numUsedAccounts : Nat
  nextAccountId : Nat
deriving DecidableEq

/-- `parseEngine(data)`: detect the layout from the length; when the layout is
unknown fall back to the default 4096-capacity offsets; fail only when the
buffer is shorter than `ENGINE_OFF` plus the (detected or default) accounts
offset. -/
def parseEngine (len : Nat) (f : Nat → Byte) : Option EngineState :=
  let base := ENGINE_OFF
  let layout := detectLayout len
  let minLen := match layout with
    | some l => l.accountsOff
    | none => ENGINE_ACCOUNTS_OFF
  if len < base + minLen then none
  else
    let bw := match layout with
      | some l => l.bitmapWords
      | none => DEFAULT_BITMAP_WORDS
    let numUsedOff := ENGINE_BITMAP_OFF + bw * 8
    some {
      vault := readU128LE f (base + ENGINE_VAULT_OFF)
      insuranceFund := {
        balance := readU128LE f (base + ENGINE_INSURANCE_OFF)
        feeRevenue := readU128LE f (base + ENGINE_INSURANCE_OFF + 16) }
      currentSlot := readU64LE f (base + ENGINE_CURRENT_SLOT_OFF)
      fundingIndexQpbE6 := readI128LE f (base + ENGINE_FUNDING_INDEX_OFF)
      lastFundingSlot := readU64LE f (base + ENGINE_LAST_FUNDING_SLOT_OFF)
      fundingRateBpsPerSlotLast := readI64LE f (base + ENGINE_FUNDING_RATE_BPS_OFF)
      lastCrankSlot := readU64LE f (base + ENGINE_LAST_CRANK_SLOT_OFF)
      maxCrankStalenessSlots := readU64LE f (base + ENGINE_MAX_CRANK_STALENESS_OFF)
      totalOpenInterest := readU128LE f (base + ENGINE_TOTAL_OI_OFF)
      cTot := readU128LE f (base + ENGINE_C_TOT_OFF)
      pnlPosTot := readU128LE f (base + ENGINE_PNL_POS_TOT_OFF)
      liqCursor := readU16LE f (base + ENGINE_LIQ_CURSOR_OFF)
      gcCursor := readU16LE f (base + ENGINE_GC_CURSOR_OFF)
      lastSweepStartSlot := readU64LE f (base + ENGINE_LAST_SWEEP_START_OFF)
      lastSweepCompleteSlot := readU64LE f (base + ENGINE_LAST_SWEEP_COMPLETE_OFF)
      crankCursor := readU16LE f (base + ENGINE_CRANK_CURSOR_OFF)
      sweepStartIdx := readU16LE f (base + ENGINE_SWEEP_START_IDX_OFF)
      lifetimeLiquidations := readU64LE f (base + ENGINE_LIFETIME_LIQUIDATIONS_OFF)
      lifetimeForceCloses := readU64LE f (base + ENGINE_LIFETIME_FORCE_CLOSES_OFF)
      netLpPos := readI128LE f (base + ENGINE_NET_LP_POS_OFF)
      lpSumAbs := readU128LE f (base + ENGINE_LP_SUM_ABS_OFF)
      lpMaxAbs := readU128LE f (base + ENGINE_LP_MAX_ABS_OFF)
      lpMaxAbsSweep := readU128LE f (base + ENGINE_LP_MAX_ABS_SWEEP_OFF)
      numUsedAccounts := readU16LE f (base + numUsedOff)
      nextAccountId := readU64LE f (base + (numUsedOff + 2 + 7) / 8 * 8) }

/-! ### Sparse slot index (`parseUsedIndices` / `isAccountUsed` in slab.ts) -/

/-- `parseUsedIndices(data)`: iterate each bitmap word, skip all-zero words,
and for nonzero words append `word*64 + bit` for each set bit, ascending. -/
def parseUsedIndices (len : Nat) (f : Nat → Byte) : Option (List Nat) :=
  let bitmapWords := match detectLayout len with
    | some l => l.bitmapWords
    | none => DEFAULT_BITMAP_WORDS
  let base := ENGINE_OFF + ENGINE_BITMAP_OFF
  if len < base + bitmapWords * 8 then none
  else some <| (List.range bitmapWords).flatMap fun word =>
    if readU64LE f (base + word * 8) = 0 then []
    else ((List.range 64).filter fun bit =>
        (readU64LE f (base + word * 8) >>> bit) &&& 1 != 0).map
      fun bit => word * 64 + bit

/-- `isAccountUsed(data, idx)`: O(1) point query; out-of-range indices return
`false` rather than failing. -/
def isAccountUsed (len : Nat) (f : Nat → Byte) (idx : Nat) : Bool :=
  let maxAcc := match detectLayout len with
    | some l => l.maxAccounts
    | none => DEFAULT_MAX_ACCOUNTS
  if idx < maxAcc then
    let base := ENGINE_OFF + ENGINE_BITMAP_OFF
    let word := idx / 64
    let bit := idx % 64
    (readU64LE f (base + word * 8) >>> bit) &&& 1 != 0
  else false

/-! ### DEX price resolvers (`dex-oracle.ts`) -/

def SPL_TOKEN_AMOUNT_MIN_LEN : Nat := 72

/-- `computePumpSwapPriceE6(poolData, vaultData)`: validate both vault buffers,
read the u64 token amounts at offset 64, and return
`quoteAmount * 1e6 / baseAmount` with sentinel `0` for a zero base amount. -/
def computePumpSwapPriceE6 (baseLen quoteLen : Nat)
    (base quote : Nat → Byte) : Option Nat :=
  if baseLen < SPL_TOKEN_AMOUNT_MIN_LEN then none
  else if quoteLen < SPL_TOKEN_AMOUNT_MIN_LEN then none
  else
    let baseAmount := readU64LE base 64
    let quoteAmount := readU64LE quote 64
    if baseAmount = 0 then some 0
    else some (quoteAmount * 1000000 / baseAmount)

def RAYDIUM_CLMM_MIN_LEN : Nat := 269

/-- Core of `computeRaydiumClmmPriceE6` after the field reads: the
precision-preserving reformulation (pre-multiply by 1e6, shift by 64, multiply
by sqrt, shift by 64, then apply the decimal adjustment reduced by 6). -/
def raydiumClmmPriceE6 (decimals0 decimals1 sqrtPriceX64 : Nat) : Nat :=
  if sqrtPriceX64 = 0 then 0
  else
    let scaledSqrt := sqrtPriceX64 * 1000000
    let term := scaledSqrt >>> 64
    let priceE6Raw := (term * sqrtPriceX64) >>> 64
    let decimalDiff : Int := 6 + (decimals0 : Int) - (decimals1 : Int)
    let adjustedDiff : Int := decimalDiff - 6
    if 0 ≤ adjustedDiff then priceE6Raw * 10 ^ adjustedDiff.toNat
    else priceE6Raw / 10 ^ (-adjustedDiff).toNat

/-- `computeRaydiumClmmPriceE6(data)`: length check, read decimals at 233/234
and `sqrt_price_x64` at 253, then the core computation. -/
def computeRaydiumClmmPriceE6 (len : Nat) (f : Nat → Byte) : Option Nat :=
  if len < RAYDIUM_CLMM_MIN_LEN then none
  else some (raydiumClmmPriceE6 (f 233).val (f 234).val (readU128LE f 253))

def METEORA_DLMM_MIN_LEN : Nat := 145

/-- The 1e18 fixed-point scale used by the Meteora DLMM computation. -/
def SCALE : Nat := 1000000000000000000

/-- The `while (exp > 0)` exponentiation-by-squaring loop of
`computeMeteoraDlmmPriceE6`, in 1e18 fixed point. -/
def powLoop (result b exp : Nat) : Nat :=
  if exp = 0 then result
  else
    let r := if exp &&& 1 = 1 then result * b / SCALE else result
    let e := exp >>> 1
    let b2 := if 0 < e then b * b / SCALE else b
    powLoop r b2 e
termination_by exp
decreasing_by simp only [Nat.shiftRight_eq_div_pow, pow_one]; omega

/-- Core of `computeMeteoraDlmmPriceE6` after the field reads:
`(1 + binStep/10000) ^ activeId` in 1e18 fixed point, inverting for negative
`activeId`, rescaled to e6. -/
def meteoraDlmmPriceE6 (binStep : Nat) (activeId : Int) : Nat :=
  if binStep = 0 then 0
  else
    let base := SCALE + binStep * SCALE / 10000
    let isNeg := activeId < 0
    let exp := activeId.natAbs
    let result := powLoop SCALE base exp
    if isNeg then
      if result = 0 then 0 else SCALE * 1000000 / result
    else result / 1000000000000

/-- `computeMeteoraDlmmPriceE6(data)`: length check, read `bin_step` (u16 at
74) and `active_id` (i32 at 77), then the core computation. -/
def computeMeteoraDlmmPriceE6 (len : Nat) (f : Nat → Byte) : Option Nat :=
  if len < METEORA_DLMM_MIN_LEN then none
  else
    let binStep := readU16LE f 74
    let activeId := readI32LE f 77
    some (meteoraDlmmPriceE6 binStep activeId)

/-- The 16 little-endian bytes of the two's-complement representation of a
128-bit signed value, i.e. of `v mod 2^128`.  Used to state the 128-bit
signed round trip. -/
def i128Bytes (v : Int) : Nat → Byte := fun i =>
  ⟨(v % 2 ^ 128).toNat / 256 ^ i % 256, Nat.mod_lt _ (by decide)⟩

/-- The occupancy-bit test at absolute bit index `i`, as `isAccountUsed`
computes it: word `i / 64`, bit `i % 64`. -/
def bitSet (f : Nat → Byte) (base i : Nat) : Bool :=
  (readU64LE f (base + i / 64 * 8) >>> (i % 64)) &&& 1 != 0

/-! ### Concrete example buffers -/

/-- A well-formed header buffer: correct magic bytes, all other bytes zero. -/
def goodHeaderBytes : Nat → Byte := fun i =>
  if i < 8 then ⟨magicByte i, Nat.mod_lt _ (by decide)⟩ else 0

/-- `goodHeaderBytes` with byte 48 (the first pending-admin byte) changed. -/
def goodHeaderBytesAlt : Nat → Byte := fun i =>
  if i = 48 then 1 else goodHeaderBytes i

/-- A slab buffer for the capacity-64 tier whose occupancy bitmap marks
exactly index 1 (byte 1176 is the first bitmap byte). -/
def bitmapExample : Nat → Byte := fun i => if i = 1176 then 2 else 0

/-- An SPL token account buffer holding amount 2 at offset 64. -/
def pumpBaseExample : Nat → Byte := fun i => if i = 64 then 2 else 0

/-- An SPL token account buffer holding amount 10 at offset 64. -/
def pumpQuoteExample : Nat → Byte := fun i => if i = 64 then 10 else 0

/-! ### Helper lemmas -/

theorem detectLayout_eq_none_iff (L : Nat) :
    detectLayout L = none ↔ ∀ n ∈ KNOWN_TIERS, expectedSlabLen n ≠ L := by
  unfold detectLayout
  simp [List.find?_eq_none]

theorem detectLayout_eq_some (L : Nat) (lay : SlabLayoutInfo)
    (h : detectLayout L = some lay) :
    ∃ n ∈ KNOWN_TIERS, expectedSlabLen n = L ∧ lay = slabLayout n := by
  unfold detectLayout at h
  rw [Option.map_eq_some'] at h
  obtain ⟨n, hfind, hlay⟩ := h
  have hmem := List.mem_of_find?_eq_some hfind
  have hpred := List.find?_some hfind
  exact ⟨n, hmem, by simpa using hpred, hlay.symm⟩

/-! ### Claim theorems -/

/-- Claim C2 counterexample: capacity 128 is a candidate under the general
size formula and its computed total length is 33216, yet the resolver returns
the unknown result for a buffer of exactly that length instead of the
capacity-128 descriptor. -/
theorem detectLayout_misses_formula_capacity :
    expectedSlabLen 128 = 33216 ∧ detectLayout 33216 = none := by
  decide

/-- Claim C2 (amended): the layout resolver tries only the four known tier
capacities 64, 256, 1024, 4096; it returns the descriptor of a tier whose
formula-computed total length equals the buffer length exactly, and returns
the explicit unknown result if and only if no known tier length matches —
lengths matching the general formula at a non-tier capacity are not
resolved. -/
theorem detectLayout_exact_match_policy (L : Nat) :
    (detectLayout L = none ↔ ∀ n ∈ KNOWN_TIERS, expectedSlabLen n ≠ L) ∧
    (∀ lay, detectLayout L = some lay →
      ∃ n ∈ KNOWN_TIERS, expectedSlabLen n = L ∧ lay = slabLayout n) :=
  ⟨detectLayout_eq_none_iff L, fun lay h => detectLayout_eq_some L lay h⟩

/-- Claim C2 witness: a length matching no tier resolves to the unknown
result. -/
theorem detectLayout_exact_match_policy_witness : detectLayout 100 = none :=
  (detectLayout_exact_match_policy 100).1.mpr (by decide)

/-- Claim C3: for every known tier capacity, resolving the exact byte length
the size formula computes for that capacity yields a descriptor whose slot
capacity is that capacity (round trip). -/
theorem detectLayout_roundtrip :
    ((detectLayout (expectedSlabLen 64)).map fun l => l.maxAccounts) = some 64 ∧
    ((detectLayout (expectedSlabLen 256)).map fun l => l.maxAccounts) = some 256 ∧
    ((detectLayout (expectedSlabLen 1024)).map fun l => l.maxAccounts) = some 1024 ∧
    ((detectLayout (expectedSlabLen 4096)).map fun l => l.maxAccounts) = some 4096 := by
  decide

/-- Claim C4 counterexample: a 9904-byte buffer matches no known layout, yet
the engine decode succeeds — it proceeds with the default 4096-capacity
offsets instead of failing. -/
theorem parseEngine_succeeds_without_layout :
    detectLayout 9904 = none ∧
    (parseEngine 9904 fun _ => (0 : Byte)).isSome = true := by
  constructor
  · decide
  · rfl

/-- Claim C4 (amended): engine decoding does not require a resolved layout
descriptor; when the buffer length matches no known layout it falls back to
the default 4096-capacity accounts offset, and it fails exactly when the
buffer is shorter than `ENGINE_OFF` plus the detected (or default) accounts
offset. -/
theorem parseEngine_fails_iff_too_short (len : Nat) (f : Nat → Byte) :
    parseEngine len f = none ↔
      len < ENGINE_OFF + (match detectLayout len with
        | some l => l.accountsOff
        | none => ENGINE_ACCOUNTS_OFF) := by
  unfold parseEngine
  split
  · simp_all
  · simp_all

/-- Claim C4 witness: the empty buffer fails the engine decode. -/
theorem parseEngine_fails_iff_too_short_witness :
    parseEngine 0 (fun _ => (0 : Byte)) = none :=
  (parseEngine_fails_iff_too_short 0 fun _ => (0 : Byte)).mpr (by decide)

/-- Claim C5: for every buffer of at least header length, header decoding
fails whenever any of the 8 magic bytes differs from the expected constant;
and with the correct magic and a zero flag byte the decoded header has
`resolved = false` and `paused = false`. -/
theorem parseHeader_magic_and_flags (len : Nat) (f : Nat → Byte)
    (hlen : HEADER_LEN ≤ len) :
    ((∃ i, i < 8 ∧ (f i).val ≠ magicByte i) → parseHeader len f = none) ∧
    ((∀ i, i < 8 → (f i).val = magicByte i) → (f 13).val = 0 →
      ∃ h, parseHeader len f = some h ∧ h.resolved = false ∧ h.paused = false) := by
  have e0 : magicByte 0 = 0x54 := by decide
  have e1 : magicByte 1 = 0x41 := by decide
  have e2 : magicByte 2 = 0x4c := by decide
  have e3 : magicByte 3 = 0x4f := by decide
  have e4 : magicByte 4 = 0x43 := by decide
  have e5 : magicByte 5 = 0x52 := by decide
  have e6 : magicByte 6 = 0x45 := by decide
  have e7 : magicByte 7 = 0x50 := by decide
  have h0 := (f 0).isLt
  have h1 := (f 1).isLt
  have h2 := (f 2).isLt
  have h3 := (f 3).isLt
  have h4 := (f 4).isLt
  have h5 := (f 5).isLt
  have h6 := (f 6).isLt
  have h7 := (f 7).isLt
  constructor
  · rintro ⟨i, hi, hne⟩
    unfold parseHeader
    rw [if_neg (Nat.not_lt.mpr hlen), if_pos]
    intro hmag
    unfold readU64LE at hmag
    simp only [MAGIC] at hmag
    norm_num at hmag
    interval_cases i <;>
      simp only [e0, e1, e2, e3, e4, e5, e6, e7] at hne <;> omega
  · intro hmag hflag
    have hMagEq : readU64LE f 0 = MAGIC := by
      have g0 := hmag 0 (by omega)
      have g1 := hmag 1 (by omega)
      have g2 := hmag 2 (by omega)
      have g3 := hmag 3 (by omega)
      have g4 := hmag 4 (by omega)
      have g5 := hmag 5 (by omega)
      have g6 := hmag 6 (by omega)
      have g7 := hmag 7 (by omega)
      unfold readU64LE
      simp only [MAGIC]
      norm_num
      rw [g0, g1, g2, g3, g4, g5, g6, g7] at *
      simp only [e0, e1, e2, e3, e4, e5, e6, e7]
    unfold parseHeader
    rw [if_neg (Nat.not_lt.mpr hlen), if_neg (by simp [hMagEq])]
    refine ⟨_, rfl, ?_, ?_⟩ <;> (show (_ != 0) = false; rw [hflag]; decide)

/-- Claim C5 witness: the all-zero buffer fails on its first magic byte; the
well-formed header with a zero flag byte decodes with both flags clear. -/
theorem parseHeader_magic_and_flags_witness :
    parseHeader 104 (fun _ => (0 : Byte)) = none ∧
    ∃ h, parseHeader 104 goodHeaderBytes = some h ∧
      h.resolved = false ∧ h.paused = false := by
  constructor
  · exact (parseHeader_magic_and_flags 104 (fun _ => (0 : Byte)) (by decide)).1
      ⟨0, by decide, by decide⟩
  · exact (parseHeader_magic_and_flags 104 goodHeaderBytes (by decide)).2
      (by decide) (by decide)

/-- Claim C6 counterexample: two well-formed header buffers that differ only
at byte 48 — inside the pending-admin region (bytes 48 to 80) — decode to
identical headers, so the pending-admin identity is neither read nor
returned (the decoded header has no such field). -/
theorem parseHeader_pending_admin_not_returned :
    parseHeader 104 goodHeaderBytes = parseHeader 104 goodHeaderBytesAlt ∧
    goodHeaderBytes 48 ≠ goodHeaderBytesAlt 48 := by
  decide

/-- Claim C6 (amended): header decoding reads and returns the admin identity
from bytes 16 to 48, along with version (bytes 8 to 12), bump (byte 12), the
flag byte (byte 13), and nonce and last-threshold-update slot from the
reserved region (bytes 80 to 96); the pending-admin identity (bytes 48 to 80)
is not read: the decoded header is unchanged under any modification of bytes
48 to 80. -/
theorem parseHeader_field_offsets (len : Nat) (f : Nat → Byte)
    (hlen : HEADER_LEN ≤ len) (hmag : readU64LE f 0 = MAGIC) :
    parseHeader len f = some {
      magic := MAGIC
      version := readU32LE f 8
      bump := (f 12).val
      flags := (f 13).val
      resolved := ((f 13).val &&& FLAG_RESOLVED) != 0
      paused := ((f 13).val &&& 2) != 0
      admin := (List.range 32).map fun i => f (16 + i)
      nonce := readU64LE f 80
      lastThrUpdateSlot := readU64LE f 88 } ∧
    ∀ g : Nat → Byte, (∀ i, i < 48 ∨ 80 ≤ i → g i = f i) →
      parseHeader len g = parseHeader len f := by
  constructor
  · unfold parseHeader
    rw [if_neg (Nat.not_lt.mpr hlen), if_neg (by simp [hmag])]
    simp only [RESERVED_OFF, hmag]
  · intro g hg
    have e64 : readU64LE g 0 = readU64LE f 0 := by
      unfold readU64LE
      rw [hg 0 (by omega), hg (0 + 1) (by omega), hg (0 + 2) (by omega),
        hg (0 + 3) (by omega), hg (0 + 4) (by omega), hg (0 + 5) (by omega),
        hg (0 + 6) (by omega), hg (0 + 7) (by omega)]
    have e32 : readU32LE g 8 = readU32LE f 8 := by
      unfold readU32LE
      rw [hg 8 (by omega), hg (8 + 1) (by omega), hg (8 + 2) (by omega),
        hg (8 + 3) (by omega)]
    have e12 : g 12 = f 12 := hg 12 (by omega)
    have e13 : g 13 = f 13 := hg 13 (by omega)
    have eAdmin : ((List.range 32).map fun i => g (16 + i))
        = (List.range 32).map fun i => f (16 + i) := by
      apply List.map_congr_left
      intro i hi
      rw [List.mem_range] at hi
      exact hg (16 + i) (by omega)
    have e80 : readU64LE g RESERVED_OFF = readU64LE f RESERVED_OFF := by
      unfold readU64LE
      simp only [RESERVED_OFF]
      rw [hg 80 (by omega), hg (80 + 1) (by omega), hg (80 + 2) (by omega),
        hg (80 + 3) (by omega), hg (80 + 4) (by omega), hg (80 + 5) (by omega),
        hg (80 + 6) (by omega), hg (80 + 7) (by omega)]
    have e88 : readU64LE g (RESERVED_OFF + 8) = readU64LE f (RESERVED_OFF + 8) := by
      unfold readU64LE
      simp only [RESERVED_OFF]
      rw [hg (80 + 8) (by omega), hg (80 + 8 + 1) (by omega),
        hg (80 + 8 + 2) (by omega), hg (80 + 8 + 3) (by omega),
        hg (80 + 8 + 4) (by omega), hg (80 + 8 + 5) (by omega),
        hg (80 + 8 + 6) (by omega), hg (80 + 8 + 7) (by omega)]
    unfold parseHeader
    rw [e64, e32, e12, e13, eAdmin, e80, e88]

/-- Claim C6 witness: the well-formed header decodes to the record built from
its own bytes at the stated offsets. -/
theorem parseHeader_field_offsets_witness :
    parseHeader 104 goodHeaderBytes = some {
      magic := MAGIC
      version := readU32LE goodHeaderBytes 8
      bump := (goodHeaderBytes 12).val
      flags := (goodHeaderBytes 13).val
      resolved := ((goodHeaderBytes 13).val &&& FLAG_RESOLVED) != 0
      paused := ((goodHeaderBytes 13).val &&& 2) != 0
      admin := (List.range 32).map fun i => goodHeaderBytes (16 + i)
      nonce := readU64LE goodHeaderBytes 80
      lastThrUpdateSlot := readU64LE goodHeaderBytes 88 } :=
  (parseHeader_field_offsets 104 goodHeaderBytes (by decide) (by decide)).1

theorem layout_bounds (len : Nat) (lay : SlabLayoutInfo)
    (h : detectLayout len = some lay) :
    ENGINE_OFF + ENGINE_BITMAP_OFF + lay.bitmapWords * 8 ≤ len ∧
    lay.maxAccounts ≤ lay.bitmapWords * 64 := by
  obtain ⟨n, hn, hlen, hlay⟩ := detectLayout_eq_some len lay h
  subst hlay
  subst hlen
  simp only [KNOWN_TIERS, List.mem_cons, List.not_mem_nil, or_false] at hn
  rcases hn with rfl | rfl | rfl | rfl <;> decide

theorem usedIndices_chunk (f : Nat → Byte) (base n : Nat) :
    (if readU64LE f (base + n * 8) = 0 then ([] : List Nat)
     else ((List.range 64).filter fun bit =>
         (readU64LE f (base + n * 8) >>> bit) &&& 1 != 0).map fun bit => n * 64 + bit)
    = ((List.range 64).map fun b => n * 64 + b).filter (bitSet f base) := by
  rw [List.filter_map]
  have hc : ((List.range 64).filter ((bitSet f base) ∘ fun b => n * 64 + b))
      = (List.range 64).filter fun bit =>
          (readU64LE f (base + n * 8) >>> bit) &&& 1 != 0 := by
    apply List.filter_congr
    intro b hb
    rw [List.mem_range] at hb
    show bitSet f base (n * 64 + b) = _
    unfold bitSet
    have h1 : (n * 64 + b) / 64 = n := by omega
    have h2 : (n * 64 + b) % 64 = b := by omega
    rw [h1, h2]
  rw [hc]
  by_cases hbits : readU64LE f (base + n * 8) = 0
  · rw [if_pos hbits, hbits]
    have hz : ((List.range 64).filter fun bit => (0 >>> bit) &&& 1 != 0)
        = ([] : List Nat) := by decide
    rw [hz]
    rfl
  · rw [if_neg hbits]

theorem usedIndices_eq_filter (f : Nat → Byte) (base : Nat) (bw : Nat) :
    ((List.range bw).flatMap fun word =>
      if readU64LE f (base + word * 8) = 0 then ([] : List Nat)
      else ((List.range 64).filter fun bit =>
          (readU64LE f (base + word * 8) >>> bit) &&& 1 != 0).map fun bit => word * 64 + bit)
    = (List.range (bw * 64)).filter (bitSet f base) := by
  induction bw with
  | zero => simp
  | succ n ih =>
    rw [List.range_succ, List.flatMap_append, ih]
    have hrw : (n + 1) * 64 = n * 64 + 64 := by ring
    rw [hrw, List.range_add, List.filter_append]
    congr 1
    simp only [List.flatMap_cons, List.flatMap_nil, List.append_nil]
    exact usedIndices_chunk f base n

/-- Claim C7: for every buffer with a resolved layout of capacity N and every
index i below N, the O(1) point query agrees with the full bitmap
enumeration (i is reported occupied iff it appears in the enumeration), and
the enumeration is strictly ascending. -/
theorem bitmap_point_query_agrees_with_enumeration (len : Nat) (f : Nat → Byte)
    (lay : SlabLayoutInfo) (h : detectLayout len = some lay) :
    ∃ used, parseUsedIndices len f = some used ∧
      used.Pairwise (· < ·) ∧
      ∀ i, i < lay.maxAccounts → (isAccountUsed len f i = true ↔ i ∈ used) := by
  obtain ⟨hlenok, hcap⟩ := layout_bounds len lay h
  refine ⟨(List.range (lay.bitmapWords * 64)).filter
    (bitSet f (ENGINE_OFF + ENGINE_BITMAP_OFF)), ?_, ?_, ?_⟩
  · unfold parseUsedIndices
    simp only [h]
    rw [if_neg (by omega), usedIndices_eq_filter]
  · exact List.Pairwise.sublist (List.filter_sublist _) (List.pairwise_lt_range _)
  · intro i hi
    rw [List.mem_filter, List.mem_range]
    unfold isAccountUsed
    simp only [h]
    rw [if_pos hi]
    unfold bitSet
    constructor
    · intro hb
      exact ⟨lt_of_lt_of_le hi hcap, hb⟩
    · rintro ⟨_, hb⟩
      exact hb

/-- Claim C7 witness: in a capacity-64 slab whose bitmap marks exactly index
1, the point query and the enumeration agree at index 1. -/
theorem bitmap_point_query_agrees_witness :
    isAccountUsed 17208 bitmapExample 1 = true ∧
    ∃ used, parseUsedIndices 17208 bitmapExample = some used ∧ 1 ∈ used := by
  obtain ⟨used, hparse, hsort, hiff⟩ :=
    bitmap_point_query_agrees_with_enumeration 17208 bitmapExample
      (slabLayout 64) (by decide)
  have h1 : isAccountUsed 17208 bitmapExample 1 = true := by decide
  exact ⟨h1, used, hparse, (hiff 1 (by decide)).mp h1⟩

/-- Claim C1 counterexample: the square-root price 1 is nonzero, yet with
equal decimals the computed concentrated-liquidity price is 0 — the price is
not strictly positive for every nonzero square-root price. -/
theorem raydium_price_zero_at_nonzero_sqrt :
    raydiumClmmPriceE6 6 6 1 = 0 := by
  decide

/-- Claim C1 (amended): with fixed decimals the computed price is 0 when the
stored square-root price is 0 and is monotonically nondecreasing in the
square-root price; strict positivity holds only for large enough square-root
prices (in particular whenever the square-root price is at least 2^64 and the
quote decimals do not exceed the base decimals), while small nonzero
square-root prices can still produce the price 0. -/
theorem raydium_price_monotone (d0 d1 s s' : Nat) (hss : s ≤ s') :
    raydiumClmmPriceE6 d0 d1 0 = 0 ∧
    raydiumClmmPriceE6 d0 d1 s ≤ raydiumClmmPriceE6 d0 d1 s' ∧
    (d1 ≤ d0 → 2 ^ 64 ≤ s → 0 < raydiumClmmPriceE6 d0 d1 s) := by
  have hpow : 0 < 2 ^ 64 := Nat.pos_pow_of_pos 64 (by omega)
  refine ⟨rfl, ?_, ?_⟩
  · simp only [raydiumClmmPriceE6, Nat.shiftRight_eq_div_pow]
    by_cases hs : s = 0
    · rw [if_pos hs]
      exact Nat.zero_le _
    · have hs' : s' ≠ 0 := by omega
      rw [if_neg hs, if_neg hs']
      have h1 : s * 1000000 / 2 ^ 64 ≤ s' * 1000000 / 2 ^ 64 :=
        Nat.div_le_div_right (Nat.mul_le_mul_right _ hss)
      have h2 : s * 1000000 / 2 ^ 64 * s / 2 ^ 64 ≤ s' * 1000000 / 2 ^ 64 * s' / 2 ^ 64 :=
        Nat.div_le_div_right (Nat.mul_le_mul h1 hss)
      by_cases hd : (0 : Int) ≤ 6 + (d0 : Int) - (d1 : Int) - 6
      · rw [if_pos hd, if_pos hd]
        exact Nat.mul_le_mul_right _ h2
      · rw [if_neg hd, if_neg hd]
        exact Nat.div_le_div_right h2
  · intro hd hs64
    simp only [raydiumClmmPriceE6, Nat.shiftRight_eq_div_pow]
    rw [if_neg (by omega)]
    have hterm : 1000000 ≤ s * 1000000 / 2 ^ 64 := by
      have hm : 2 ^ 64 * 1000000 ≤ s * 1000000 := Nat.mul_le_mul_right _ hs64
      calc 1000000 = 2 ^ 64 * 1000000 / 2 ^ 64 := by
            rw [Nat.mul_div_right _ hpow]
        _ ≤ s * 1000000 / 2 ^ 64 := Nat.div_le_div_right hm
    have hraw : 1000000 ≤ s * 1000000 / 2 ^ 64 * s / 2 ^ 64 := by
      rw [Nat.le_div_iff_mul_le hpow]
      calc 1000000 * 2 ^ 64 ≤ (s * 1000000 / 2 ^ 64) * (2 ^ 64) :=
            Nat.mul_le_mul_right _ hterm
        _ ≤ s * 1000000 / 2 ^ 64 * s := Nat.mul_le_mul_left _ hs64
    rw [if_pos (by omega)]
    have h10 : 0 < 10 ^ ((6 : Int) + (d0 : Int) - (d1 : Int) - 6).toNat :=
      Nat.pos_pow_of_pos _ (by omega)
    exact Nat.mul_pos (by omega) h10

/-- Claim C1 witness: at square-root price 2^64 with equal decimals the price
is positive, and it does not decrease when the square-root price grows. -/
theorem raydium_price_monotone_witness :
    raydiumClmmPriceE6 6 6 0 = 0 ∧
    raydiumClmmPriceE6 6 6 (2 ^ 64) ≤ raydiumClmmPriceE6 6 6 (2 ^ 64 + 1) ∧
    0 < raydiumClmmPriceE6 6 6 (2 ^ 64) := by
  obtain ⟨h0, hm, hp⟩ :=
    raydium_price_monotone 6 6 (2 ^ 64) (2 ^ 64 + 1) (by omega)
  exact ⟨h0, hm, hp (by omega) (by omega)⟩

set_option maxRecDepth 8000 in
/-- Claim C8: the 128-bit signed decoder round-trips the two's-complement
encodings of −1, −(2^127), and 2^127 − 1 exactly, and in general it equals
the unsigned 128-bit composition minus 2^128 when that composition is at
least 2^127. -/
theorem readI128LE_roundtrip :
    readI128LE (i128Bytes (-1)) 0 = -1 ∧
    readI128LE (i128Bytes (-(2 ^ 127))) 0 = -(2 ^ 127) ∧
    readI128LE (i128Bytes (2 ^ 127 - 1)) 0 = 2 ^ 127 - 1 ∧
    ∀ (f : Nat → Byte) (off : Nat), readI128LE f off =
      if 2 ^ 127 ≤ readU128LE f off then (readU128LE f off : Int) - 2 ^ 128
      else (readU128LE f off : Int) :=
  ⟨by decide, by decide, by decide, fun f off => rfl⟩

/-- Claim C9: given two auxiliary balance buffers of sufficient length, the
constant-product price is quoteBalance · 10^6 / baseBalance (integer
division), and a zero base balance yields the sentinel price 0 rather than a
failure. -/
theorem pumpswap_price_formula (baseLen quoteLen : Nat) (base quote : Nat → Byte)
    (hb : SPL_TOKEN_AMOUNT_MIN_LEN ≤ baseLen)
    (hq : SPL_TOKEN_AMOUNT_MIN_LEN ≤ quoteLen) :
    (readU64LE base 64 ≠ 0 →
      computePumpSwapPriceE6 baseLen quoteLen base quote
        = some (readU64LE quote 64 * 1000000 / readU64LE base 64)) ∧
    (readU64LE base 64 = 0 →
      computePumpSwapPriceE6 baseLen quoteLen base quote = some 0) := by
  unfold computePumpSwapPriceE6
  rw [if_neg (Nat.not_lt.mpr hb), if_neg (Nat.not_lt.mpr hq)]
  constructor
  · intro h
    rw [if_neg h]
  · intro h
    rw [if_pos h]

/-- Claim C9 witness: base 2 and quote 10 give price 5,000,000. -/
theorem pumpswap_price_formula_witness :
    computePumpSwapPriceE6 72 72 pumpBaseExample pumpQuoteExample
      = some 5000000 := by
  rw [(pumpswap_price_formula 72 72 pumpBaseExample pumpQuoteExample
    (by decide) (by decide)).1 (by decide)]
  decide

theorem powLoop_ge_scale (exp : Nat) : ∀ result b : Nat,
    SCALE ≤ result → SCALE ≤ b → SCALE ≤ powLoop result b exp := by
  have hS : 0 < SCALE := by norm_num [SCALE]
  have hstep : ∀ x y : Nat, SCALE ≤ x → SCALE ≤ y → SCALE ≤ x * y / SCALE := by
    intro x y hx hy
    rw [Nat.le_div_iff_mul_le hS]
    exact Nat.mul_le_mul hx hy
  induction exp using Nat.strong_induction_on with
  | _ e ih =>
    intro result b hr hb
    rw [powLoop]
    split
    · exact hr
    · next he =>
      have hlt : e >>> 1 < e := by
        simp only [Nat.shiftRight_eq_div_pow, pow_one]
        omega
      apply ih _ hlt
      · split
        · exact hstep _ _ hr hb
        · exact hr
      · split
        · exact hstep _ _ hb hb
        · exact hb

/-- Claim C10: for every bin step at least 1 and every active bin index, the
fixed-point exponentiation accumulator stays at or above the 1e18 scale, so
the result fed to the negative-index inversion is never zero: the zero-result
guard is not taken and the inversion divides by a nonzero value. -/
theorem meteora_inversion_never_divides_by_zero (binStep : Nat) (activeId : Int)
    (h : 1 ≤ binStep) :
    SCALE ≤ powLoop SCALE (SCALE + binStep * SCALE / 10000) activeId.natAbs ∧
    (activeId < 0 →
      meteoraDlmmPriceE6 binStep activeId
        = SCALE * 1000000 /
            powLoop SCALE (SCALE + binStep * SCALE / 10000) activeId.natAbs) := by
  have hS : 0 < SCALE := by norm_num [SCALE]
  have hres := powLoop_ge_scale activeId.natAbs SCALE
    (SCALE + binStep * SCALE / 10000) le_rfl (Nat.le_add_right _ _)
  refine ⟨hres, fun hneg => ?_⟩
  unfold meteoraDlmmPriceE6
  rw [if_neg (by omega)]
  simp only
  rw [if_pos hneg, if_neg (by omega)]

/-- Claim C10 witness: bin step 1 at active bin index −1 takes the inversion
path with a nonzero (≥ 1e18) divisor. -/
theorem meteora_inversion_witness :
    SCALE ≤ powLoop SCALE (SCALE + 1 * SCALE / 10000) ((-1 : Int)).natAbs ∧
    meteoraDlmmPriceE6 1 (-1)
      = SCALE * 1000000 / powLoop SCALE (SCALE + 1 * SCALE / 10000) ((-1 : Int)).natAbs := by
  obtain ⟨h1, h2⟩ := meteora_inversion_never_divides_by_zero 1 (-1) (by omega)
  exact ⟨h1, h2 (by omega)⟩

end PercolatorSdk
